import Mathlib

/-!
Shallow embedding of the koa-hbs view-rendering adapter (src/index.js).

JavaScript objects are modelled as association lists with JS assignment
semantics (an existing key is updated in place, a new key is appended);
the filesystem is an abstract partial map from paths to file contents;
the handlebars engine is an abstract parameter that maps a compiled
template and render data to an output string, threading the instance's
block store (its helpers close over the instance, so a body render may
contribute to and a layout render may consume named blocks).
-/

namespace KoaHbs

/-- Lookup in a JS-object modelled as an association list (own-property read). -/
def getA : List (String × α) → String → Option α
  | [], _ => none
  | (k, v) :: rest, key => if k = key then some v else getA rest key

/-- JS property assignment: update the key in place if present, else append. -/
def setA : List (String × α) → String → α → List (String × α)
  | [], key, v => [(key, v)]
  | (k, w) :: rest, key, v => if k = key then (key, v) :: rest else (k, w) :: setA rest key v

/-- Object.prototype.hasOwnProperty.call(o, k). -/
def hasA (o : List (String × α)) (k : String) : Bool := (getA o k).isSome

/-- JS values appearing in render data; only the shapes the adapter inspects are
distinguished (strings, booleans, null, and the opaque koa context). -/
inductive Val where
  | vStr (s : String)
  | vBool (b : Bool)
  | vNull
  | vKoa
deriving DecidableEq

/-- JS string coercion as used by getLayoutPath (layout + extname). -/
def valToString : Val → String
  | .vStr s => s
  | .vBool true => "true"
  | .vBool false => "false"
  | .vNull => "null"
  | .vKoa => "[object Object]"

/-- A JS data object. -/
abbrev Obj := List (String × Val)

/-- Object.keys. -/
def objKeys (o : Obj) : List String := o.map Prod.fst

/-- Translation of function merge(obj1, obj2) from src/index.js lines 10-19:
copies obj2's properties into a fresh object c, then adds each property of
obj1 whose key c does not already have. Properties of obj2 win. -/
def merge (obj1 obj2 : Obj) : Obj :=
  let c := (objKeys obj2).foldl (fun c k => setA c k ((getA obj2 k).getD Val.vNull)) []
  (objKeys obj1).foldl (fun c k => if hasA c k then c else setA c k ((getA obj1 k).getD Val.vNull)) c

/-- Data merging performed by the renderer (src/index.js lines 123-124):
locals = merge(state, data); locals = merge(hbs.locals, locals). -/
def mergedLocals (globalLocals ctxState data : Obj) : Obj :=
  merge globalLocals (merge ctxState data)

/-- The instance-wide block store, this.blocks: block name → ordered fragments. -/
abbrev Blocks := List (String × List String)

/-- Translation of Hbs.prototype.content (src/index.js lines 259-262): push a
rendered fragment onto blocks[name], creating the array when absent. -/
def content (b : Blocks) (name frag : String) : Blocks :=
  match getA b name with
  | some l => setA b name (l ++ [frag])
  | none => setA b name [frag]

/-- Translation of Hbs.prototype.block (src/index.js lines 264-268): join
blocks[name] (or []) with newline, then reset blocks[name] to []. -/
def block (b : Blocks) (name : String) : String × Blocks :=
  (String.intercalate "\n" ((getA b name).getD []), setA b name [])

/-- The registered block helper (configure, src/index.js lines 83-87): retrieve
the named block; if the result is the empty string and the helper call carries
a body (options.fn), render that fallback body instead. The fallback argument
is the rendered options.fn output when the call has one. -/
def blockHelper (b : Blocks) (name : String) (fallback : Option String) : String × Blocks :=
  let v := block b name
  (if v.1 = "" && fallback.isSome then fallback.getD "" else v.1, v.2)

/-- A sequence of contentFor contributions to one block name, in order. -/
def contribList (b : Blocks) (name : String) (frags : List String) : Blocks :=
  frags.foldl (fun b f => content b name f) b

/-- A compiled handlebars template; compilation is opaque to the adapter, so a
compiled template is identified by its source text. -/
structure Tmpl where
  src : String
deriving DecidableEq

/-- Source text of the passthrough layout the code compiles for the "no
layout" cases: a triple-stache body insertion. -/
def passthroughSrc : String := "\x7b\x7b\x7bbody\x7d\x7d\x7d"

/-- A template-cache entry, hbs.cache[tpl]. -/
structure CacheEntry where
  template : Tmpl
  layoutTemplate : Option Tmpl
deriving DecidableEq

/-- Mutable instance state of an Hbs adapter, configuration fields included.
partialsPath is modelled as the root list it is coerced to; layoutTemplate is
the lazily built default-layout slot (none models undefined, which is also
what a failed cacheLayout leaves there); partials is the handlebars partial
table; tplOptData is templateOptions.data. -/
structure HbsState where
  viewPath : List String
  extname : String
  partialsPath : List String
  layoutsPath : String
  defaultLayout : String
  locals : Obj
  disableCache : Bool
  partialsRegistered : Bool
  cache : List (String × CacheEntry)
  pathCache : List (String × String)
  layoutTemplate : Option Tmpl
  blocks : Blocks
  partials : List (String × String)
  tplOptData : Obj
deriving DecidableEq

/-- The filesystem: path → file contents when the file exists. -/
abbrev FS := String → Option String

/-- Directory globbing: root → relative paths matching the extension pattern
(modelled as total; every returned path ends with the extension). -/
abbrev Glob := String → List String

/-- The opaque handlebars render capability applied to a compiled template and
merged data. Its helpers close over the adapter instance, so it reads and
writes the instance's block store. -/
abbrev Engine := Tmpl → Obj → Blocks → String × Blocks

/-- Filesystem and compile events observable during a render, in order. -/
inductive Ev where
  | stat (p : String)
  | readF (p : String)
  | globD (root : String)
  | compile (src : String)
deriving DecidableEq

/-- Rejections a render can produce: the MissingTemplateError with its extra
payload, a rejected file read (ENOENT), and the TypeError raised when the
code calls an undefined layoutTemplate as a function. -/
inductive RenderErr where
  | missingTemplate (extra : Option String)
  | fileNotFound (p : String)
  | layoutNotCallable
deriving DecidableEq

/-- path.isAbsolute for posix paths: starts with a slash. -/
def jsIsAbsolute (s : String) : Bool :=
  match s.data with
  | '/' :: _ => true
  | _ => false

/-- path.join, with separator normalization abstracted away (no claim depends
on it). -/
def joinPath (a b : String) : String := a ++ "/" ++ b

/-- ASCII whitespace matched by the regex class backslash-s. -/
def isWs (c : Char) : Bool :=
  c == ' ' || c == '\t' || c == '\n' || c == '\r' || c == '\x0b' || c == '\x0c'

/-- Characters of the capture class of rLayoutPattern (src/index.js line 8):
letters, digits, dot, underscore, hyphen, slash. -/
def isNameChar (c : Char) : Bool :=
  c.isAlphanum || c == '.' || c == '_' || c == '-' || c == '/'

/-- Attempt to match rLayoutPattern at the head of the character list: the
literal open-stache comment marker, one or more whitespace, one or more name
characters (the capture), optional whitespace, then two closing braces. Each
character class is disjoint from what must follow it, so greedy matching
needs no backtracking. -/
def matchDirectiveAt (l : List Char) : Option String :=
  match l with
  | '{' :: '{' :: '!' :: '<' :: rest =>
    if (rest.takeWhile isWs).isEmpty then none
    else
      let r1 := rest.dropWhile isWs
      let nm := r1.takeWhile isNameChar
      if nm.isEmpty then none
      else
        match (r1.dropWhile isNameChar).dropWhile isWs with
        | '}' :: '}' :: _ => some (String.mk nm)
        | _ => none
  | _ => none

/-- Leftmost-match search for rLayoutPattern: the regex is unanchored, so
every position of the source is a candidate start. -/
def findDirectiveFrom : List Char → Option String
  | [] => none
  | c :: rest =>
    match matchDirectiveAt (c :: rest) with
    | some nm => some nm
    | none => findDirectiveFrom rest

/-- rLayoutPattern.exec(raw)[1]: the captured layout name of the first
directive match anywhere in raw, if the pattern matches at all. -/
def findLayoutDirective (raw : String) : Option String :=
  findDirectiveFrom raw.data

/-- The layout decision made while compiling a template (src/index.js lines
134-136): the layout branch is entered when the merged data has a layout
field or the directive pattern matches the source; an explicit field wins
over the directive. -/
def chooseLayout (locals : Obj) (raw : String) : Option Val :=
  if (getA locals "layout").isSome || (findLayoutDirective raw).isSome then
    some (match getA locals "layout" with
          | some v => v
          | none => Val.vStr ((findLayoutDirective raw).getD ""))
  else
    none

/-- Probing loop of getTemplatePath (src/index.js lines 244-254): statSync
each root/tpl.extname in order, returning the first existing path. -/
def probeRoots (fsys : FS) (ext tpl : String) : List String → Option String × List Ev
  | [] => (none, [])
  | root :: rest =>
    let p := joinPath root (tpl ++ ext)
    if (fsys p).isSome then (some p, [Ev.stat p])
    else
      let r := probeRoots fsys ext tpl rest
      (r.1, Ev.stat p :: r.2)

/-- Translation of Hbs.prototype.getTemplatePath (src/index.js lines 240-257):
return the memoized path when present, otherwise probe the view roots and,
when caching is enabled, memoize the hit (the source writes the cache at the
successful root before returning, which is the same net effect). -/
def getTemplatePath (fsys : FS) (st : HbsState) (tpl : String) :
    Option String × HbsState × List Ev :=
  match getA st.pathCache tpl with
  | some p => (some p, st, [])
  | none =>
    match probeRoots fsys st.extname tpl st.viewPath with
    | (some p, ops) =>
      (some p,
       if st.disableCache then st
       else { st with pathCache := setA st.pathCache tpl p }, ops)
    | (none, ops) => (none, st, ops)

/-- Translation of Hbs.prototype.getLayoutPath (src/index.js lines 162-165). -/
def getLayoutPath (st : HbsState) (layout : String) : String :=
  if st.layoutsPath ≠ "" then joinPath st.layoutsPath (layout ++ st.extname)
  else joinPath (st.viewPath.headD "") (layout ++ st.extname)

/-- Translation of Hbs.prototype.cacheLayout (src/index.js lines 174-188); the
only call site passes no argument, so layout is none there. A failed layout
read is caught, logged to the console, and yields undefined (none). -/
def cacheLayout (fsys : FS) (st : HbsState) (layout : Option String) :
    Option Tmpl × List Ev :=
  if layout = none ∧ st.defaultLayout = "" then
    (some ⟨passthroughSrc⟩, [Ev.compile passthroughSrc])
  else
    let f := getLayoutPath st (layout.getD st.defaultLayout)
    match fsys f with
    | some rawL => (some ⟨rawL⟩, [Ev.readF f, Ev.compile rawL])
    | none => (none, [Ev.readF f])

/-- Translation of Hbs.prototype.getLayoutTemplate (src/index.js lines
167-172): lazily build the default-layout slot, rebuilding it whenever the
cache is disabled or the slot is falsy (unset, or undefined after a failed
build). -/
def getLayoutTemplate (fsys : FS) (st : HbsState) :
    Option Tmpl × HbsState × List Ev :=
  if st.disableCache || st.layoutTemplate.isNone then
    let r := cacheLayout fsys st none
    (r.1, { st with layoutTemplate := r.1 }, r.2)
  else
    (st.layoutTemplate, st, [])

/-- String.prototype.slice(0, -n) as used for extension stripping in
registerPartials (src/index.js line 224); slice(0, -0) is the empty string,
though configure never leaves extname empty. -/
def jsSliceDropEnd (s : String) (n : Nat) : String :=
  if n = 0 then "" else String.mk (s.data.take (s.data.length - n))

/-- File/name pairs assembled by registerPartials (src/index.js lines
218-226): for each root in order and each globbed relative file, the full
path to read and the partial name, the relative path with the extension
sliced off. -/
def partialPairs (roots : List String) (g : Glob) (ext : String) :
    List (String × String) :=
  (roots.map (fun root => (g root).map
    (fun file => (joinPath root file, jsSliceDropEnd file ext.length)))).flatten

/-- Promise.all(files.map(read)) over the assembled pairs: all-or-nothing
reads, pairing each partial name with its file contents. -/
def readAll (fsys : FS) : List (String × String) → Option (List (String × String))
  | [] => some []
  | pr :: rest =>
    match fsys pr.1, readAll fsys rest with
    | some c, some acc => some ((pr.2, c) :: acc)
    | _, _ => none

/-- Translation of Hbs.prototype.registerPartials (src/index.js lines
206-238). Globbing is modelled as total; a failing file read rejects
Promise.all, and the catch logs and leaves the instance unchanged, so the
registered flag stays false and nothing registers. An empty root list
returns before registering and never raises the flag. -/
def registerPartials (fsys : FS) (g : Glob) (st : HbsState) : HbsState × List Ev :=
  let roots := st.partialsPath
  let globOps := roots.map Ev.globD
  if roots.length = 0 then (st, globOps)
  else
    let pairs := partialPairs roots g st.extname
    let readOps := pairs.map (fun pr => Ev.readF pr.1)
    match readAll fsys pairs with
    | some regs =>
      ({ st with
          partials := regs.foldl (fun t pr => setA t pr.1 pr.2) st.partials,
          partialsRegistered := true },
       globOps ++ readOps)
    | none => (st, globOps ++ readOps)

/-- The cache-miss body of the renderer (src/index.js lines 130-145): read the
template source, compile it, store the entry, then decide and attach the
per-template layout. The entry (template only) is stored before the layout is
loaded, so a failing layout read rejects with the template already cached. -/
def compileTemplate (fsys : FS) (st : HbsState) (tpl p : String) (locals : Obj) :
    Except RenderErr CacheEntry × HbsState × List Ev :=
  match fsys p with
  | none => (Except.error (RenderErr.fileNotFound p), st, [Ev.readF p])
  | some raw =>
    let st1 := { st with cache := setA st.cache tpl ⟨⟨raw⟩, none⟩ }
    match chooseLayout locals raw with
    | none => (Except.ok ⟨⟨raw⟩, none⟩, st1, [Ev.readF p, Ev.compile raw])
    | some lv =>
      if lv ≠ Val.vBool false then
        let lp := getLayoutPath st (valToString lv)
        match fsys lp with
        | none =>
          (Except.error (RenderErr.fileNotFound lp), st1,
           [Ev.readF p, Ev.compile raw, Ev.readF lp])
        | some rawL =>
          let e : CacheEntry := ⟨⟨raw⟩, some ⟨rawL⟩⟩
          (Except.ok e, { st1 with cache := setA st1.cache tpl e },
           [Ev.readF p, Ev.compile raw, Ev.readF lp, Ev.compile rawL])
      else
        let e : CacheEntry := ⟨⟨raw⟩, some ⟨passthroughSrc⟩⟩
        (Except.ok e, { st1 with cache := setA st1.cache tpl e },
         [Ev.readF p, Ev.compile raw, Ev.compile passthroughSrc])

/-- The cache gate around compileTemplate (src/index.js line 130): reuse the
entry unless the cache is disabled or the name is not yet cached. -/
def getOrCompile (fsys : FS) (st : HbsState) (tpl p : String) (locals : Obj) :
    Except RenderErr CacheEntry × HbsState × List Ev :=
  if st.disableCache then compileTemplate fsys st tpl p locals
  else
    match getA st.cache tpl with
    | some e => (Except.ok e, st, [])
    | none => compileTemplate fsys st tpl p locals

/-- Translation of the render closure from Hbs.prototype.createRenderer
(src/index.js lines 109-160). The result is the string assigned to this.body
(or the rejection), the instance state after the call, and the filesystem and
compile events in order. The partials condition of the source is
disableCache or (not partialsRegistered and partialsPath !== ''); after
configure, partialsPath is an array or a nonempty string, never '', so the
last conjunct is always true and is dropped here. On rejection the state
keeps the mutations made before the throw; the request-scoped locals object
(including its body field) is request-local and dropped. -/
def render (fsys : FS) (g : Glob) (eng : Engine) (st : HbsState)
    (ctxState : Obj) (tpl : String) (data : Obj) :
    Except RenderErr String × HbsState × List Ev :=
  match getTemplatePath fsys st tpl with
  | (tplPath0, st1, ops1) =>
    match if jsIsAbsolute tpl then some (tpl ++ st1.extname) else tplPath0 with
    | none => (Except.error (RenderErr.missingTemplate none), st1, ops1)
    | some p =>
      let locals := mergedLocals st1.locals ctxState data
      match if st1.disableCache || !st1.partialsRegistered
            then registerPartials fsys g st1 else (st1, []) with
      | (st2, ops2) =>
        match getOrCompile fsys st2 tpl p locals with
        | (Except.error er, st3, ops3) => (Except.error er, st3, ops1 ++ ops2 ++ ops3)
        | (Except.ok entry, st3, ops3) =>
          match (match entry.layoutTemplate with
                 | some lt => (some lt, st3, ([] : List Ev))
                 | none => getLayoutTemplate fsys st3) with
          | (layoutOpt, st4, ops4) =>
            let st5 := { st4 with tplOptData := merge st4.tplOptData [("koa", Val.vKoa)] }
            match eng entry.template locals st5.blocks with
            | (bodyStr, b1) =>
              let locals2 := setA locals "body" (Val.vStr bodyStr)
              match layoutOpt with
              | none =>
                (Except.error RenderErr.layoutNotCallable,
                 { st5 with blocks := b1 }, ops1 ++ ops2 ++ ops3 ++ ops4)
              | some lt =>
                match eng lt locals2 b1 with
                | (outStr, b2) =>
                  (Except.ok outStr, { st5 with blocks := b2 },
                   ops1 ++ ops2 ++ ops3 ++ ops4)

/-- Base instance state for the concrete scenarios: one view root /v, the
default .hbs extension, no partial roots (with the registered flag raised so
partial discovery is quiescent), no layouts root, no default layout, caching
enabled, empty caches and stores. -/
def exSt0 : HbsState :=
  { viewPath := ["/v"], extname := ".hbs", partialsPath := [],
    layoutsPath := "", defaultLayout := "", locals := [],
    disableCache := false, partialsRegistered := true,
    cache := [], pathCache := [], layoutTemplate := none,
    blocks := [], partials := [], tplOptData := [] }

/-- Concrete engine for the scenarios: renders the passthrough layout as the
body field, marks the two layout sources LA and LB, and renders any other
source s as B:s. -/
def exEng : Engine := fun t l b =>
  (if t.src = passthroughSrc then
    (match getA l "body" with | some (Val.vStr s) => s | _ => "?")
   else if t.src = "LA" then "WRAPA"
   else if t.src = "LB" then "WRAPB"
   else "B:" ++ t.src, b)

/-- Concrete engine that echoes the template source. -/
def exEngEcho : Engine := fun t _ b => (t.src, b)

/-- Filesystem for the C1 scenarios: a template whose first line is a
directive naming layout lay, and that layout. -/
def exFs1 : FS := fun p =>
  if p = "/v/home.hbs" then some "\x7b\x7b!< lay\x7d\x7dbody" else
  if p = "/v/lay.hbs" then some "LA" else none

/-- Filesystem for the C6 scenarios: a template whose directive names layout
A; layouts A and B both exist. -/
def exFs6 : FS := fun p =>
  if p = "/v/t.hbs" then some "\x7b\x7b!< A\x7d\x7dx" else
  if p = "/v/A.hbs" then some "LA" else
  if p = "/v/B.hbs" then some "LB" else none

/-- Filesystem for the C7 counterexample: the directive marker sits on the
second line of the template, and the layout it names exists. -/
def exFs7 : FS := fun p =>
  if p = "/v/t2.hbs" then some "x\n\x7b\x7b!< l \x7d\x7d" else
  if p = "/v/l.hbs" then some "WRAP" else none

/-- Filesystem for the C3 scenario: the template h exists, the configured
default layout main does not. -/
def exFs3 : FS := fun p => if p = "/v/h.hbs" then some "HI" else none

/-- Instance state for the C3 scenario: a default layout is configured. -/
def exSt3 : HbsState := { exSt0 with defaultLayout := "main" }

/-- The empty filesystem. -/
def exFsEmpty : FS := fun _ => none

/-- Filesystem for the C10 witness: one template whose source is T. -/
def exFsC10 : FS := fun p => if p = "/v/tt.hbs" then some "T" else none

/-- Engine for the C10 witness: rendering the body template T contributes two
fragments to block x; rendering anything else touches no blocks. -/
def exEngContrib : Engine := fun t _ b =>
  if t.src = "T" then ("made", contribList b "x" ["f1", "f2"]) else ("", b)

/-- Instance state for the C10 witness: a stale fragment for block x is
already in the store when the render starts. -/
def exStC10 : HbsState := { exSt0 with blocks := [("x", ["old"])] }

/-- Partial root configuration for the C9 witness. -/
def exSt9 : HbsState := { exSt0 with partialsPath := ["/p"], partialsRegistered := false }

/-- Glob results for the C9 witness: one partial at sub/a.hbs under /p. -/
def exGlob9 : Glob := fun r => if r = "/p" then ["sub/a.hbs"] else []

/-- Filesystem for the C9 witness. -/
def exFs9 : FS := fun p => if p = "/p/sub/a.hbs" then some "PARTIAL" else none

theorem getA_setA (o : List (String × α)) (k key : String) (v : α) :
    getA (setA o k v) key = if k = key then some v else getA o key := by
  induction o with
  | nil => simp [getA, setA]
  | cons hd tl ih =>
    obtain ⟨k', w⟩ := hd
    by_cases h1 : k' = k
    · subst h1
      by_cases h2 : k' = key <;> simp [getA, setA, h2]
    · by_cases h2 : k' = key
      · subst h2
        have hk : ¬ k = k' := fun h => h1 h.symm
        simp [getA, setA, h1, hk]
      · simp [getA, setA, h1, h2, ih]

theorem getA_copyFold (g : String → Val) (ks : List String) (c0 : Obj) (k : String) :
    getA (ks.foldl (fun c k => setA c k (g k)) c0) k
      = if k ∈ ks then some (g k) else getA c0 k := by
  induction ks generalizing c0 with
  | nil => simp
  | cons hd tl ih =>
    simp only [List.foldl_cons, ih, getA_setA]
    by_cases h1 : k ∈ tl
    · simp [h1]
    · by_cases h2 : hd = k
      · subst h2; simp [h1]
      · have hk : ¬ k = hd := fun h => h2 h.symm
        simp [h1, h2, hk, List.mem_cons]

theorem getA_skipFold (g : String → Val) (ks : List String) (c0 : Obj) (k : String) :
    getA (ks.foldl (fun c k => if hasA c k then c else setA c k (g k)) c0) k
      = match getA c0 k with
        | some v => some v
        | none => if k ∈ ks then some (g k) else none := by
  induction ks generalizing c0 with
  | nil => cases h : getA c0 k <;> simp [h]
  | cons hd tl ih =>
    simp only [List.foldl_cons, ih]
    by_cases h2 : hd = k
    · subst h2
      cases h : getA c0 hd with
      | some v => simp [hasA, h]
      | none => simp [hasA, h, getA_setA]
    · have hk : ¬ k = hd := fun h => h2 h.symm
      cases h : getA c0 k with
      | some v =>
        by_cases hh : hasA c0 hd <;> simp [hh, h, getA_setA, h2]
      | none =>
        by_cases hh : hasA c0 hd <;>
          simp [hh, h, getA_setA, h2, hk, List.mem_cons]

theorem mem_objKeys_iff (o : Obj) (k : String) :
    k ∈ objKeys o ↔ (getA o k).isSome := by
  induction o with
  | nil => simp [objKeys, getA]
  | cons hd tl ih =>
    obtain ⟨k', v⟩ := hd
    by_cases h : k' = k
    · subst h
      simp [objKeys, getA]
    · have hk : ¬ k = k' := fun h' => h h'.symm
      simp only [objKeys, List.map_cons, List.mem_cons] at ih ⊢
      simp [getA, h, hk, ih]

theorem getA_merge (o1 o2 : Obj) (k : String) :
    getA (merge o1 o2) k
      = match getA o2 k with
        | some v => some v
        | none => getA o1 k := by
  unfold merge
  rw [getA_skipFold, getA_copyFold]
  cases h2 : getA o2 k with
  | some v =>
    have hm : k ∈ objKeys o2 := (mem_objKeys_iff o2 k).2 (by simp [h2])
    simp [hm, h2]
  | none =>
    have hm : k ∉ objKeys o2 := by
      rw [mem_objKeys_iff, h2]; simp
    cases h1 : getA o1 k with
    | some v =>
      have hm1 : k ∈ objKeys o1 := (mem_objKeys_iff o1 k).2 (by simp [h1])
      simp [hm, hm1, getA, h1]
    | none =>
      have hm1 : k ∉ objKeys o1 := by
        rw [mem_objKeys_iff, h1]; simp
      simp [hm, hm1, getA]

/-- C4: for every render call, the data handed to the templates is the shallow
non-mutating overlay of instance globalLocals, request state, and call-site
data, with call-site data taking precedence over state and state over
globalLocals; merge builds a fresh object (the source writes only to the new
object c), so none of the three inputs is modified. -/
theorem mergedLocals_precedence (globalLocals ctxState data : Obj) (k : String) :
    getA (mergedLocals globalLocals ctxState data) k
      = match getA data k with
        | some v => some v
        | none =>
          match getA ctxState k with
          | some v => some v
          | none => getA globalLocals k := by
  unfold mergedLocals
  rw [getA_merge, getA_merge]
  cases h : getA data k <;> simp [h]

theorem getA_contribList_getD (b : Blocks) (name : String) (frags : List String) :
    (getA (contribList b name frags) name).getD [] = (getA b name).getD [] ++ frags := by
  induction frags generalizing b with
  | nil => simp [contribList]
  | cons f fs ih =>
    have hstep : contribList b name (f :: fs) = contribList (content b name f) name fs := rfl
    rw [hstep, ih]
    cases h : getA b name <;> simp [content, h, getA_setA]

/-- C5: within one render, retrieving a named block joins the fragments
contributed during body rendering with newline and then clears that name, so
the content appears exactly once and a second retrieval in the same render
yields the empty string; retrieving a never-contributed name yields the empty
string, in which case the block helper renders the layout's fallback content
for that slot instead. -/
theorem block_retrieval_one_shot (b0 : Blocks) (name : String) (frags : List String)
    (fb : String) (hfresh : getA b0 name = none) :
    (block (contribList b0 name frags) name).1 = String.intercalate "\n" frags
    ∧ (block (block (contribList b0 name frags) name).2 name).1 = ""
    ∧ (block b0 name).1 = ""
    ∧ (blockHelper b0 name (some fb)).1 = fb := by
  refine ⟨?_, ?_, ?_, ?_⟩
  · simp [block, getA_contribList_getD, hfresh]
  · simp [block, getA_setA, String.intercalate]
  · simp [block, hfresh, String.intercalate]
  · simp [blockHelper, block, hfresh, String.intercalate]

/-- Witness for block_retrieval_one_shot: two contributions to "sidebar" on an
empty store, retrieved once, retrieved again, and the fallback case. -/
theorem block_retrieval_one_shot_witness :
    (block (contribList [] "sidebar" ["a", "b"]) "sidebar").1 = "a\nb"
    ∧ (block (block (contribList [] "sidebar" ["a", "b"]) "sidebar").2 "sidebar").1 = ""
    ∧ (block ([] : Blocks) "sidebar").1 = ""
    ∧ (blockHelper ([] : Blocks) "sidebar" (some "default")).1 = "default" := by
  obtain ⟨h1, h2, h3, h4⟩ :=
    block_retrieval_one_shot ([] : Blocks) "sidebar" ["a", "b"] "default" rfl
  exact ⟨h1.trans (by decide), h2, h3, h4⟩

theorem getTemplatePath_state (fsys : FS) (st : HbsState) (tpl : String) :
    ∃ pc, (getTemplatePath fsys st tpl).2.1 = { st with pathCache := pc } := by
  unfold getTemplatePath
  split
  · exact ⟨st.pathCache, rfl⟩
  · split
    · split
      · exact ⟨st.pathCache, rfl⟩
      · exact ⟨_, rfl⟩
    · exact ⟨st.pathCache, rfl⟩

theorem registerPartials_state (fsys : FS) (g : Glob) (st : HbsState) :
    ∃ ps fl, (registerPartials fsys g st).1
      = { st with partials := ps, partialsRegistered := fl } := by
  simp only [registerPartials]
  split
  · exact ⟨st.partials, st.partialsRegistered, rfl⟩
  · split
    · exact ⟨_, _, rfl⟩
    · exact ⟨st.partials, st.partialsRegistered, rfl⟩

theorem compileTemplate_state (fsys : FS) (st : HbsState) (tpl p : String) (locals : Obj) :
    ∃ c, (compileTemplate fsys st tpl p locals).2.1 = { st with cache := c } := by
  simp only [compileTemplate]
  split
  · exact ⟨st.cache, rfl⟩
  · split
    · exact ⟨_, rfl⟩
    · split
      · split
        · exact ⟨_, rfl⟩
        · exact ⟨_, rfl⟩
      · exact ⟨_, rfl⟩

theorem getOrCompile_state (fsys : FS) (st : HbsState) (tpl p : String) (locals : Obj) :
    ∃ c, (getOrCompile fsys st tpl p locals).2.1 = { st with cache := c } := by
  unfold getOrCompile
  split
  · exact compileTemplate_state fsys st tpl p locals
  · split
    · exact ⟨st.cache, rfl⟩
    · exact compileTemplate_state fsys st tpl p locals

theorem getLayoutTemplate_state (fsys : FS) (st : HbsState) :
    ∃ lt, (getLayoutTemplate fsys st).2.1 = { st with layoutTemplate := lt } := by
  unfold getLayoutTemplate
  split
  · exact ⟨_, rfl⟩
  · exact ⟨st.layoutTemplate, rfl⟩

theorem getLayoutTemplate_slot (fsys : FS) (st : HbsState) :
    ((getLayoutTemplate fsys st).2.1).layoutTemplate = (getLayoutTemplate fsys st).1 := by
  unfold getLayoutTemplate
  split <;> rfl

/-- C1 counterexample: with caching enabled, a first render of home (no
layout field) caches the directive's layout; a second render of the same name
with layout=false in its data is delivered wrapped in the cached layout
(WRAPA), not as the pure body render of the template with the merged data,
refuting the claim's "regardless of any earlier renders of the same template
name". -/
theorem c1_layout_false_after_cache_counterexample :
    (render exFs1 (fun _ => []) exEng
        ((render exFs1 (fun _ => []) exEng exSt0 [] "home" []).2.1)
        [] "home" [("layout", Val.vBool false)]).1 = Except.ok "WRAPA"
    ∧ (exEng (Tmpl.mk "\x7b\x7b!< lay\x7d\x7dbody")
        (mergedLocals exSt0.locals [] [("layout", Val.vBool false)])
        ((render exFs1 (fun _ => []) exEng exSt0 [] "home" []).2.1).blocks).1
        = "B:\x7b\x7b!< lay\x7d\x7dbody"
    ∧ ("WRAPA" : String) ≠ "B:\x7b\x7b!< lay\x7d\x7dbody" :=
  ⟨rfl, rfl, by decide⟩

/-- C6 counterexample: after a first render with no explicit layout caches
the directive's layout A, a second render of the same template whose data
carries the explicit layout B is still delivered wrapped in A (the cached
entry is reused wholesale), refuting the claim's "whenever the data carries
an explicit layout value, that value takes precedence over the directive"
for every render. -/
theorem c6_explicit_layout_after_cache_counterexample :
    (render exFs6 (fun _ => []) exEng
        ((render exFs6 (fun _ => []) exEng exSt0 [] "t" []).2.1)
        [] "t" [("layout", Val.vStr "B")]).1 = Except.ok "WRAPA"
    ∧ ("WRAPA" : String) ≠ "WRAPB" :=
  ⟨rfl, by decide⟩

/-- C7 counterexample: rLayoutPattern is unanchored, so a marker on the
second line of the source still matches; the render reads, compiles and uses
the layout l it names (the delivered output is the layout render), refuting
the claim that a marker occurring after the first line does not select a
layout. -/
theorem c7_marker_not_first_line_counterexample :
    findLayoutDirective "x\n\x7b\x7b!< l \x7d\x7d" = some "l"
    ∧ (render exFs7 (fun _ => []) exEngEcho exSt0 [] "t2" []).1 = Except.ok "WRAP"
    ∧ (render exFs7 (fun _ => []) exEngEcho exSt0 [] "t2" []).2.2
        = [Ev.stat "/v/t2.hbs", Ev.readF "/v/t2.hbs",
           Ev.compile "x\n\x7b\x7b!< l \x7d\x7d", Ev.readF "/v/l.hbs",
           Ev.compile "WRAP"] :=
  ⟨rfl, rfl, rfl⟩

/-- C3, evaluation at the failing input: with defaultLayout main configured
but /v/main.hbs absent, cacheLayout's failed read is caught and yields
undefined, and the render then rejects with the TypeError raised by calling
the undefined layoutTemplate — the body HI is rendered but never delivered,
contradicting the claim that such a render still completes with the body as
the entire output. -/
theorem c3_default_layout_failure_crashes :
    (render exFs3 (fun _ => []) exEngEcho exSt3 [] "h" []).1
        = Except.error RenderErr.layoutNotCallable
    ∧ (render exFs3 (fun _ => []) exEngEcho exSt3 [] "h" []).2.2
        = [Ev.stat "/v/h.hbs", Ev.readF "/v/h.hbs", Ev.compile "HI",
           Ev.readF "/v/main.hbs"] :=
  ⟨rfl, rfl⟩

/-- C8 counterexample: when no view root contains the template, the render
does reject with the MissingTemplateError, but the error's extra payload is
the undefined resolved path (none) — it carries neither the attempted
template name home nor the probed path /v/home.hbs, refuting the claim that
the error carries the attempted name or path as its payload. -/
theorem c8_missing_template_payload_counterexample :
    (render exFsEmpty (fun _ => []) exEngEcho exSt0 [] "home" []).1
        = Except.error (RenderErr.missingTemplate none)
    ∧ (render exFsEmpty (fun _ => []) exEngEcho exSt0 [] "home" []).2.2
        = [Ev.stat "/v/home.hbs"]
    ∧ (none : Option String) ≠ some "home"
    ∧ (none : Option String) ≠ some "/v/home.hbs" :=
  ⟨rfl, rfl, by decide, by decide⟩

theorem getTemplatePath_hit {fsys : FS} {st : HbsState} {tpl p : String}
    (h : getA st.pathCache tpl = some p) :
    getTemplatePath fsys st tpl = (some p, st, []) := by
  unfold getTemplatePath
  rw [h]

theorem probeRoots_none {fsys : FS} {ext tpl : String} {roots : List String}
    (h : ∀ r ∈ roots, fsys (joinPath r (tpl ++ ext)) = none) :
    probeRoots fsys ext tpl roots
      = (none, roots.map (fun r => Ev.stat (joinPath r (tpl ++ ext)))) := by
  induction roots with
  | nil => rfl
  | cons r rest ih =>
    have hr : fsys (joinPath r (tpl ++ ext)) = none := h r (by simp)
    have hrest := ih (fun r' hr' => h r' (by simp [hr']))
    simp [probeRoots, hr, hrest]

theorem getTemplatePath_ok_cached {fsys : FS} {st : HbsState} {tpl p : String}
    {st1 : HbsState} {ops : List Ev}
    (hdc : st.disableCache = false)
    (h : getTemplatePath fsys st tpl = (some p, st1, ops)) :
    getA st1.pathCache tpl = some p := by
  unfold getTemplatePath at h
  split at h
  · rename_i q hq
    simp only [Prod.mk.injEq, Option.some.injEq] at h
    obtain ⟨h1, h2, -⟩ := h
    subst h1
    rw [← h2]
    exact hq
  · split at h
    · rename_i q ops'
      simp only [Prod.mk.injEq, Option.some.injEq] at h
      obtain ⟨h1, h2, -⟩ := h
      subst h1
      rw [hdc] at h2
      simp only [Bool.false_eq_true, if_false] at h2
      rw [← h2]
      simp [getA_setA]
    · simp at h

theorem registerPartials_empty {fsys : FS} {g : Glob} {st : HbsState}
    (h : st.partialsPath = []) :
    registerPartials fsys g st = (st, []) := by
  simp [registerPartials, h]

theorem getOrCompile_hit {fsys : FS} {st : HbsState} {tpl p : String} {locals : Obj}
    {e : CacheEntry}
    (hdc : st.disableCache = false)
    (he : getA st.cache tpl = some e) :
    getOrCompile fsys st tpl p locals = (Except.ok e, st, []) := by
  unfold getOrCompile
  simp [hdc, he]

theorem getLayoutTemplate_cached {fsys : FS} {st : HbsState} {lt : Tmpl}
    (hdc : st.disableCache = false)
    (h : st.layoutTemplate = some lt) :
    getLayoutTemplate fsys st = (some lt, st, []) := by
  unfold getLayoutTemplate
  simp [hdc, h]

theorem chooseLayout_explicit {locals : Obj} {raw : String} {v : Val}
    (h : getA locals "layout" = some v) :
    chooseLayout locals raw = some v := by
  simp [chooseLayout, h]

theorem chooseLayout_directive {locals : Obj} {raw : String} {nm : String}
    (hno : getA locals "layout" = none)
    (hdir : findLayoutDirective raw = some nm) :
    chooseLayout locals raw = some (Val.vStr nm) := by
  simp [chooseLayout, hno, hdir]

theorem chooseLayout_none {locals : Obj} {raw : String}
    (hno : getA locals "layout" = none)
    (hdir : findLayoutDirective raw = none) :
    chooseLayout locals raw = none := by
  simp [chooseLayout, hno, hdir]

theorem compileTemplate_ok_cache {fsys : FS} {st : HbsState} {tpl p : String}
    {locals : Obj} {e : CacheEntry} {st2 : HbsState} {ops : List Ev}
    (h : compileTemplate fsys st tpl p locals = (Except.ok e, st2, ops)) :
    getA st2.cache tpl = some e := by
  simp only [compileTemplate] at h
  split at h
  · simp at h
  · split at h
    · simp only [Prod.mk.injEq, Except.ok.injEq] at h
      obtain ⟨h1, h2, -⟩ := h
      subst h1
      rw [← h2]
      simp [getA_setA]
    · split at h
      · split at h
        · simp at h
        · simp only [Prod.mk.injEq, Except.ok.injEq] at h
          obtain ⟨h1, h2, -⟩ := h
          subst h1
          rw [← h2]
          simp [getA_setA]
      · simp only [Prod.mk.injEq, Except.ok.injEq] at h
        obtain ⟨h1, h2, -⟩ := h
        subst h1
        rw [← h2]
        simp [getA_setA]

theorem getOrCompile_ok_cache {fsys : FS} {st : HbsState} {tpl p : String}
    {locals : Obj} {e : CacheEntry} {st2 : HbsState} {ops : List Ev}
    (h : getOrCompile fsys st tpl p locals = (Except.ok e, st2, ops)) :
    getA st2.cache tpl = some e := by
  unfold getOrCompile at h
  split at h
  · exact compileTemplate_ok_cache h
  · split at h
    · rename_i e' he'
      simp only [Prod.mk.injEq, Except.ok.injEq] at h
      obtain ⟨h1, h2, -⟩ := h
      subst h1
      rw [← h2]
      exact he'
    · exact compileTemplate_ok_cache h

theorem getTemplatePath_eq_state {fsys : FS} {st : HbsState} {tpl : String}
    {r : Option String} {st1 : HbsState} {ops : List Ev}
    (h : getTemplatePath fsys st tpl = (r, st1, ops)) :
    ∃ pc, st1 = { st with pathCache := pc } := by
  obtain ⟨pc, hp⟩ := getTemplatePath_state fsys st tpl
  rw [h] at hp
  exact ⟨pc, hp⟩

theorem registerPartials_eq_state {fsys : FS} {g : Glob} {st st2 : HbsState} {ops : List Ev}
    (h : registerPartials fsys g st = (st2, ops)) :
    ∃ ps fl, st2 = { st with partials := ps, partialsRegistered := fl } := by
  obtain ⟨ps, fl, hp⟩ := registerPartials_state fsys g st
  rw [h] at hp
  exact ⟨ps, fl, hp⟩

theorem partialsStep_state {fsys : FS} {g : Glob} {c : Bool} {st1 st2 : HbsState}
    {ops : List Ev}
    (h : (if c then registerPartials fsys g st1 else (st1, [])) = (st2, ops)) :
    ∃ ps fl, st2 = { st1 with partials := ps, partialsRegistered := fl } := by
  cases c with
  | false =>
    simp only [Bool.false_eq_true, if_false, Prod.mk.injEq] at h
    exact ⟨st1.partials, st1.partialsRegistered, h.1.symm⟩
  | true =>
    simp only [if_true] at h
    exact registerPartials_eq_state h

theorem getOrCompile_ok_state {fsys : FS} {st : HbsState} {tpl p : String}
    {locals : Obj} {e : CacheEntry} {st2 : HbsState} {ops : List Ev}
    (h : getOrCompile fsys st tpl p locals = (Except.ok e, st2, ops)) :
    getA st2.cache tpl = some e ∧ ∃ c, st2 = { st with cache := c } := by
  refine ⟨getOrCompile_ok_cache h, ?_⟩
  obtain ⟨c, hc⟩ := getOrCompile_state fsys st tpl p locals
  rw [h] at hc
  exact ⟨c, hc⟩

theorem getLayoutTemplate_eq {fsys : FS} {st : HbsState} {lo : Option Tmpl}
    {st4 : HbsState} {ops : List Ev}
    (h : getLayoutTemplate fsys st = (lo, st4, ops)) :
    st4.layoutTemplate = lo ∧ ∃ lt, st4 = { st with layoutTemplate := lt } := by
  constructor
  · have hs := getLayoutTemplate_slot fsys st
    rw [h] at hs
    exact hs
  · obtain ⟨lt, hp⟩ := getLayoutTemplate_state fsys st
    rw [h] at hp
    exact ⟨lt, hp⟩

theorem layoutStep_facts {fsys : FS} {entry : CacheEntry} {st3 st4 : HbsState}
    {lo : Option Tmpl} {ops4 : List Ev}
    (h : (match entry.layoutTemplate with
          | some lt => (some lt, st3, ([] : List Ev))
          | none => getLayoutTemplate fsys st3) = (lo, st4, ops4)) :
    (∃ lt, st4 = { st3 with layoutTemplate := lt })
    ∧ (entry.layoutTemplate = none → st4.layoutTemplate = lo) := by
  cases hL : entry.layoutTemplate with
  | some lt =>
    rw [hL] at h
    simp only [Prod.mk.injEq] at h
    obtain ⟨-, h2, -⟩ := h
    refine ⟨⟨st3.layoutTemplate, by rw [← h2]⟩, ?_⟩
    intro hc
    simp at hc
  | none =>
    rw [hL] at h
    obtain ⟨hslot, lt, hsh⟩ := getLayoutTemplate_eq h
    exact ⟨⟨lt, hsh⟩, fun _ => hslot⟩

/-- Facts a successful render with caching enabled leaves in the instance
state: the path is memoized, the compiled entry is cached, and when the entry
carries no per-template layout the default-layout slot is filled. -/
theorem render_ok_state {fsys : FS} {g : Glob} {eng : Engine} {st : HbsState}
    {ctx : Obj} {tpl : String} {data : Obj} {out : String} {st' : HbsState}
    {tr : List Ev}
    (habs : jsIsAbsolute tpl = false)
    (hdc : st.disableCache = false)
    (hrun : render fsys g eng st ctx tpl data = (Except.ok out, st', tr)) :
    st'.disableCache = false
    ∧ (∃ p, getA st'.pathCache tpl = some p)
    ∧ ∃ e, getA st'.cache tpl = some e
        ∧ (e.layoutTemplate = none → st'.layoutTemplate.isSome) := by
  unfold render at hrun
  rcases h1 : getTemplatePath fsys st tpl with ⟨p0, st1, ops1⟩
  rw [h1] at hrun
  dsimp only at hrun
  obtain ⟨pc, hS1⟩ := getTemplatePath_eq_state h1
  split at hrun
  · simp at hrun
  · rename_i p heq
    split at heq
    · rename_i hc
      rw [habs] at hc
      cases hc
    · subst heq
      rcases h2 : (if st1.disableCache || !st1.partialsRegistered
                   then registerPartials fsys g st1 else (st1, [])) with ⟨st2, ops2⟩
      rw [h2] at hrun
      dsimp only at hrun
      obtain ⟨ps, fl, hS2⟩ := partialsStep_state h2
      rcases h3 : getOrCompile fsys st2 tpl p (mergedLocals st1.locals ctx data)
        with ⟨r3, st3, ops3⟩
      rw [h3] at hrun
      cases r3 with
      | error er => simp at hrun
      | ok entry =>
        dsimp only at hrun
        obtain ⟨hcache3, c3, hS3⟩ := getOrCompile_ok_state h3
        rcases h4 : (match entry.layoutTemplate with
                     | some lt => (some lt, st3, ([] : List Ev))
                     | none => getLayoutTemplate fsys st3) with ⟨lo, st4, ops4⟩
        rw [h4] at hrun
        dsimp only at hrun
        obtain ⟨⟨lt4, hS4⟩, hnone4⟩ := layoutStep_facts h4
        cases lo with
        | none => simp at hrun
        | some lt =>
          dsimp only at hrun
          simp only [Prod.mk.injEq, Except.ok.injEq] at hrun
          obtain ⟨-, hst', -⟩ := hrun
          have hpath : getA st1.pathCache tpl = some p :=
            getTemplatePath_ok_cached hdc h1
          refine ⟨?_, ⟨p, ?_⟩, entry, ?_, ?_⟩
          · rw [← hst', hS4, hS3, hS2, hS1]
            exact hdc
          · rw [← hst', hS4, hS3, hS2]
            exact hpath
          · rw [← hst', hS4]
            exact hcache3
          · intro hnone
            rw [← hst']
            have : st4.layoutTemplate = some lt := hnone4 hnone
            simp [this]

/-- C2: with caching enabled, after a template name has once been
successfully resolved and rendered (and partial discovery is quiescent:
registered, or no partial roots configured — partial registration is a
name-independent mechanism), every subsequent render call for that name
performs zero filesystem operations and zero compile calls: the memoized
path, the cached compiled entry, and the cached compiled layout are reused,
so the event trace of the second render is empty. -/
theorem c2_cached_render_no_fs (fsys : FS) (g : Glob) (eng : Engine)
    (st : HbsState) (ctx : Obj) (tpl : String) (data : Obj) (out : String)
    (st' : HbsState) (tr : List Ev) (ctx2 data2 : Obj)
    (habs : jsIsAbsolute tpl = false)
    (hdc : st.disableCache = false)
    (hrun : render fsys g eng st ctx tpl data = (Except.ok out, st', tr))
    (hpart : st'.partialsRegistered = true ∨ st'.partialsPath = []) :
    (render fsys g eng st' ctx2 tpl data2).2.2 = [] := by
  obtain ⟨hdc', ⟨p, hp⟩, e, he, hlay⟩ := render_ok_state habs hdc hrun
  unfold render
  rw [getTemplatePath_hit hp]
  dsimp only
  simp only [habs, Bool.false_eq_true, if_false]
  have hpr : (if st'.disableCache || !st'.partialsRegistered
              then registerPartials fsys g st' else (st', [])) = (st', ([] : List Ev)) := by
    rcases hpart with hreg | hempty
    · simp [hdc', hreg]
    · by_cases hflag : st'.partialsRegistered
      · simp [hdc', hflag]
      · simp [hdc', hflag, registerPartials_empty hempty]
  rw [hpr]
  dsimp only
  rw [getOrCompile_hit hdc' he]
  dsimp only
  cases hL : e.layoutTemplate with
  | some lt => simp
  | none =>
    obtain ⟨lt', hslot⟩ := Option.isSome_iff_exists.mp (hlay hL)
    rw [getLayoutTemplate_cached hdc' hslot]
    simp

/-- Witness for c2_cached_render_no_fs: the concrete C1 scenario instance —
after a first render of home populates the caches, a second render of home
produces an empty event trace. -/
theorem c2_cached_render_no_fs_witness :
    (render exFs1 (fun _ => []) exEng
        ((render exFs1 (fun _ => []) exEng exSt0 [] "home" []).2.1)
        [] "home" []).2.2 = [] :=
  c2_cached_render_no_fs exFs1 (fun _ => []) exEng exSt0 [] "home" [] _ _ _ [] []
    rfl rfl rfl (Or.inl rfl)

/-- C1 (amended): on a render that compiles the template — the name is not in
the cache, or caching is disabled — a layout value of false in the merged
render data short-circuits to the passthrough layout, and the string
delivered to the response sink equals the pure body render of that template
with the merged data, regardless of any in-template layout directive. (With
caching enabled, a later render of an already-cached name instead reuses the
cached layout; see the counterexample.) The engine hypothesis is the
handlebars passthrough fact: the compiled triple-stache body template renders
the body field verbatim and touches no blocks. -/
theorem c1_layout_false_passthrough_compiling (fsys : FS) (g : Glob) (eng : Engine)
    (st : HbsState) (ctxState : Obj) (tpl : String) (data : Obj) (p raw : String)
    (hpass : ∀ l b s, getA l "body" = some (Val.vStr s) →
      eng ⟨passthroughSrc⟩ l b = (s, b))
    (habs : jsIsAbsolute tpl = false)
    (hres : (getTemplatePath fsys st tpl).1 = some p)
    (hread : fsys p = some raw)
    (hmiss : st.disableCache = true ∨ getA st.cache tpl = none)
    (hlay : getA (mergedLocals st.locals ctxState data) "layout"
      = some (Val.vBool false)) :
    (render fsys g eng st ctxState tpl data).1
      = Except.ok ((eng ⟨raw⟩ (mergedLocals st.locals ctxState data) st.blocks).1) := by
  unfold render
  rcases h1 : getTemplatePath fsys st tpl with ⟨p0, st1, ops1⟩
  rw [h1] at hres
  have hp0 : p0 = some p := hres
  subst hp0
  obtain ⟨pc, hS1⟩ := getTemplatePath_eq_state h1
  have hl1 : st1.locals = st.locals := by rw [hS1]
  have hb1 : st1.blocks = st.blocks := by rw [hS1]
  have hd1 : st1.disableCache = st.disableCache := by rw [hS1]
  have hc1 : st1.cache = st.cache := by rw [hS1]
  dsimp only
  simp only [habs, Bool.false_eq_true, if_false]
  rcases h2 : (if st1.disableCache || !st1.partialsRegistered
               then registerPartials fsys g st1 else (st1, [])) with ⟨st2, ops2⟩
  dsimp only
  obtain ⟨ps, fl, hS2⟩ := partialsStep_state h2
  have hl2 : st2.blocks = st.blocks := by simp [hS2, hb1]
  have hd2 : st2.disableCache = st.disableCache := by simp [hS2, hd1]
  have hc2 : st2.cache = st.cache := by simp [hS2, hc1]
  have hoc : getOrCompile fsys st2 tpl p (mergedLocals st1.locals ctxState data)
      = compileTemplate fsys st2 tpl p (mergedLocals st1.locals ctxState data) := by
    unfold getOrCompile
    rcases hmiss with hdt | hmt
    · simp [hd2, hdt]
    · by_cases hdc2 : st2.disableCache
      · simp [hdc2]
      · simp [hdc2, hc2, hmt]
  rw [hoc]
  unfold compileTemplate
  rw [hread]
  dsimp only
  have hchoose : chooseLayout (mergedLocals st1.locals ctxState data) raw
      = some (Val.vBool false) :=
    chooseLayout_explicit (by rw [hl1]; exact hlay)
  rw [hchoose]
  dsimp only
  rw [if_neg (show ¬(Val.vBool false ≠ Val.vBool false) from fun h => h rfl)]
  dsimp only
  rw [hl1, hl2]
  rcases hbody : eng ⟨raw⟩ (mergedLocals st.locals ctxState data) st.blocks
    with ⟨bodyStr, b1⟩
  dsimp only
  rw [hpass _ _ bodyStr (by rw [getA_setA]; simp)]

/-- Witness for c1_layout_false_passthrough_compiling: a fresh instance
renders home, whose source carries a directive, with layout false; the output
is the pure body render. -/
theorem c1_layout_false_passthrough_compiling_witness :
    (render exFs1 (fun _ => []) exEng exSt0 [] "home"
        [("layout", Val.vBool false)]).1
      = Except.ok ((exEng ⟨"\x7b\x7b!< lay\x7d\x7dbody"⟩
          (mergedLocals exSt0.locals [] [("layout", Val.vBool false)])
          exSt0.blocks).1) :=
  c1_layout_false_passthrough_compiling exFs1 (fun _ => []) exEng exSt0 []
    "home" [("layout", Val.vBool false)] "/v/home.hbs" "\x7b\x7b!< lay\x7d\x7dbody"
    (fun l b s h => by simp [exEng, h])
    rfl rfl rfl (Or.inr rfl) rfl

/-- C8 (amended): when a non-absolute template name resolves to no existing
file under any configured view root, the render rejects with the fatal
MissingTemplateError, propagated to the caller; its extra payload is the
undefined resolved path (none) — the attempted name or path is not carried
(the source passes the falsy tplPath it just tested to the error
constructor). -/
theorem c8_missing_template_amended (fsys : FS) (g : Glob) (eng : Engine)
    (st : HbsState) (ctxState : Obj) (tpl : String) (data : Obj)
    (habs : jsIsAbsolute tpl = false)
    (hpc : getA st.pathCache tpl = none)
    (hmiss : ∀ r ∈ st.viewPath, fsys (joinPath r (tpl ++ st.extname)) = none) :
    (render fsys g eng st ctxState tpl data).1
      = Except.error (RenderErr.missingTemplate none) := by
  have hg : getTemplatePath fsys st tpl
      = (none, st, st.viewPath.map (fun r => Ev.stat (joinPath r (tpl ++ st.extname)))) := by
    unfold getTemplatePath
    rw [hpc, probeRoots_none hmiss]
  unfold render
  rw [hg]
  dsimp only
  simp only [habs, Bool.false_eq_true, if_false]

/-- Witness for c8_missing_template_amended: rendering nope on the empty
filesystem. -/
theorem c8_missing_template_amended_witness :
    (render exFsEmpty (fun _ => []) exEngEcho exSt0 [] "nope" []).1
      = Except.error (RenderErr.missingTemplate none) :=
  c8_missing_template_amended exFsEmpty (fun _ => []) exEngEcho exSt0 [] "nope" []
    rfl rfl (by intro r hr; simp [exSt0] at hr; subst hr; rfl)

/-- C6 (amended): on a render that compiles the template (the name is not in
the cache, or caching is disabled), the directive's layout name is used iff
no layout field is present in the merged render data, and an explicit value
(including the falsy false) takes precedence over the directive: with no
layout field the compiled entry's layout is the file named by the directive;
with an explicit string s it is the file named by s; with false it is the
passthrough. With caching enabled, later renders of the same name reuse
whatever layout this compiling render chose regardless of their data (see
the counterexample). -/
theorem c6_directive_vs_explicit_compiling (fsys : FS) (g : Glob) (eng : Engine)
    (st : HbsState) (ctxState : Obj) (tpl : String) (data : Obj) (p raw nm : String)
    (habs : jsIsAbsolute tpl = false)
    (hres : (getTemplatePath fsys st tpl).1 = some p)
    (hread : fsys p = some raw)
    (hmiss : st.disableCache = true ∨ getA st.cache tpl = none)
    (hdir : findLayoutDirective raw = some nm) :
    (getA (mergedLocals st.locals ctxState data) "layout" = none →
      ∀ lraw, fsys (getLayoutPath st nm) = some lraw →
        getA ((render fsys g eng st ctxState tpl data).2.1).cache tpl
          = some ⟨⟨raw⟩, some ⟨lraw⟩⟩)
    ∧ (∀ s, getA (mergedLocals st.locals ctxState data) "layout" = some (Val.vStr s) →
      ∀ lraw, fsys (getLayoutPath st s) = some lraw →
        getA ((render fsys g eng st ctxState tpl data).2.1).cache tpl
          = some ⟨⟨raw⟩, some ⟨lraw⟩⟩)
    ∧ (getA (mergedLocals st.locals ctxState data) "layout" = some (Val.vBool false) →
        getA ((render fsys g eng st ctxState tpl data).2.1).cache tpl
          = some ⟨⟨raw⟩, some ⟨passthroughSrc⟩⟩) := by
  unfold render
  rcases h1 : getTemplatePath fsys st tpl with ⟨p0, st1, ops1⟩
  rw [h1] at hres
  have hp0 : p0 = some p := hres
  subst hp0
  obtain ⟨pc, hS1⟩ := getTemplatePath_eq_state h1
  have hl1 : st1.locals = st.locals := by rw [hS1]
  have hd1 : st1.disableCache = st.disableCache := by rw [hS1]
  have hc1 : st1.cache = st.cache := by rw [hS1]
  dsimp only
  simp only [habs, Bool.false_eq_true, if_false]
  rcases h2 : (if st1.disableCache || !st1.partialsRegistered
               then registerPartials fsys g st1 else (st1, [])) with ⟨st2, ops2⟩
  dsimp only
  obtain ⟨ps, fl, hS2⟩ := partialsStep_state h2
  have hd2 : st2.disableCache = st.disableCache := by simp [hS2, hd1]
  have hc2 : st2.cache = st.cache := by simp [hS2, hc1]
  have hglp : ∀ s, getLayoutPath st2 s = getLayoutPath st s := by
    intro s
    simp [getLayoutPath, hS2, hS1]
  have hoc : getOrCompile fsys st2 tpl p (mergedLocals st1.locals ctxState data)
      = compileTemplate fsys st2 tpl p (mergedLocals st1.locals ctxState data) := by
    unfold getOrCompile
    rcases hmiss with hdt | hmt
    · simp [hd2, hdt]
    · by_cases hdc2 : st2.disableCache
      · simp [hdc2]
      · simp [hdc2, hc2, hmt]
  simp only [hoc]
  unfold compileTemplate
  simp only [hread]
  refine ⟨?_, ?_, ?_⟩
  · intro hno lraw hlraw
    rw [chooseLayout_directive
      (show getA (mergedLocals st1.locals ctxState data) "layout" = none by
        rw [hl1]; exact hno) hdir]
    dsimp only
    rw [if_pos (show Val.vStr nm ≠ Val.vBool false from fun h => Val.noConfusion h)]
    simp only [valToString]
    rw [hglp, hlraw]
    dsimp only
    simp [getA_setA]
  · intro s hs lraw hlraw
    rw [chooseLayout_explicit
      (show getA (mergedLocals st1.locals ctxState data) "layout" = some (Val.vStr s) by
        rw [hl1]; exact hs)]
    dsimp only
    rw [if_pos (show Val.vStr s ≠ Val.vBool false from fun h => Val.noConfusion h)]
    simp only [valToString]
    rw [hglp, hlraw]
    dsimp only
    simp [getA_setA]
  · intro hf
    rw [chooseLayout_explicit
      (show getA (mergedLocals st1.locals ctxState data) "layout"
          = some (Val.vBool false) by rw [hl1]; exact hf)]
    dsimp only
    rw [if_neg (show ¬(Val.vBool false ≠ Val.vBool false) from fun h => h rfl)]
    dsimp only
    simp [getA_setA]

/-- Witness for c6_directive_vs_explicit_compiling: a fresh instance compiles
template t, whose directive names layout A, with no layout field in the data;
the cached entry couples the template with the compiled contents of A. -/
theorem c6_directive_vs_explicit_compiling_witness :
    getA ((render exFs6 (fun _ => []) exEng exSt0 [] "t" []).2.1).cache "t"
      = some ⟨⟨"\x7b\x7b!< A\x7d\x7dx"⟩, some ⟨"LA"⟩⟩ :=
  (c6_directive_vs_explicit_compiling exFs6 (fun _ => []) exEng exSt0 [] "t" []
      "/v/t.hbs" "\x7b\x7b!< A\x7d\x7dx" "A" rfl rfl rfl (Or.inr rfl) rfl).1
    rfl "LA" rfl

theorem matchDirectiveAt_not_brace {c : Char} (l : List Char) (hc : c ≠ '{') :
    matchDirectiveAt (c :: l) = none := by
  unfold matchDirectiveAt
  split
  · rename_i rest heq
    simp only [List.cons.injEq] at heq
    exact absurd heq.1 hc
  · rfl

theorem findDirectiveFrom_cons_some {c : Char} {l : List Char} {nm : String}
    (h : matchDirectiveAt (c :: l) = some nm) :
    findDirectiveFrom (c :: l) = some nm := by
  unfold findDirectiveFrom
  rw [h]

theorem findDirectiveFrom_append {pre rest : List Char}
    (hpre : ∀ c ∈ pre, c ≠ '{') :
    findDirectiveFrom (pre ++ rest) = findDirectiveFrom rest := by
  induction pre with
  | nil => rfl
  | cons c cs ih =>
    have hc : c ≠ '{' := hpre c (by simp)
    have hm := matchDirectiveAt_not_brace (cs ++ rest) hc
    rw [List.cons_append]
    show (match matchDirectiveAt (c :: (cs ++ rest)) with
          | some nm => some nm
          | none => findDirectiveFrom (cs ++ rest)) = findDirectiveFrom rest
    rw [hm]
    exact ih (fun c' h' => hpre c' (by simp [h']))

theorem takeWhile_append_all {p : Char → Bool} {xs ys : List Char}
    (h : ∀ x ∈ xs, p x = true) :
    (xs ++ ys).takeWhile p = xs ++ ys.takeWhile p := by
  induction xs with
  | nil => simp
  | cons x xt ih =>
    have hx : p x = true := h x (by simp)
    simp [List.takeWhile_cons, hx, ih (fun a ha => h a (by simp [ha]))]

theorem dropWhile_append_all {p : Char → Bool} {xs ys : List Char}
    (h : ∀ x ∈ xs, p x = true) :
    (xs ++ ys).dropWhile p = ys.dropWhile p := by
  induction xs with
  | nil => simp
  | cons x xt ih =>
    have hx : p x = true := h x (by simp)
    simp [List.dropWhile_cons, hx, ih (fun a ha => h a (by simp [ha]))]

theorem nameChar_not_ws {c : Char} (h : isNameChar c = true) : isWs c = false := by
  cases hw : isWs c
  · rfl
  · exfalso
    simp only [isWs, Bool.or_eq_true, beq_iff_eq] at hw
    rcases hw with ((((h1 | h1) | h1) | h1) | h1) | h1 <;> subst h1 <;>
      exact absurd h (by decide)

theorem matchDirectiveAt_directive (nm post' : List Char)
    (hnm : nm ≠ []) (hnmc : ∀ c ∈ nm, isNameChar c = true) :
    matchDirectiveAt ('{' :: '{' :: '!' :: '<' :: ' ' :: (nm ++ ' ' :: '}' :: '}' :: post'))
      = some (String.mk nm) := by
  obtain ⟨n0, nt, rfl⟩ : ∃ n0 nt, nm = n0 :: nt := by
    cases nm with
    | nil => exact absurd rfl hnm
    | cons a b => exact ⟨a, b, rfl⟩
  have hn0 : isNameChar n0 = true := hnmc n0 (by simp)
  have hn0w : isWs n0 = false := nameChar_not_ws hn0
  have hwsSp : isWs ' ' = true := by decide
  have hnmSp : isNameChar ' ' = false := by decide
  have hwsBr : isWs '}' = false := by decide
  have h1 : ((' ' : Char) :: n0 :: (nt ++ ' ' :: '}' :: '}' :: post')).takeWhile isWs
      = [' '] := by
    simp [List.takeWhile_cons, hwsSp, hn0w]
  have h2 : ((' ' : Char) :: n0 :: (nt ++ ' ' :: '}' :: '}' :: post')).dropWhile isWs
      = n0 :: (nt ++ ' ' :: '}' :: '}' :: post') := by
    simp [List.dropWhile_cons, hwsSp, hn0w]
  have h3 : (n0 :: (nt ++ ' ' :: '}' :: '}' :: post')).takeWhile isNameChar
      = n0 :: nt := by
    have hta := @takeWhile_append_all isNameChar (n0 :: nt)
      (' ' :: '}' :: '}' :: post') hnmc
    simpa [List.takeWhile_cons, hnmSp] using hta
  have h4 : (n0 :: (nt ++ ' ' :: '}' :: '}' :: post')).dropWhile isNameChar
      = ' ' :: '}' :: '}' :: post' := by
    have hda := @dropWhile_append_all isNameChar (n0 :: nt)
      (' ' :: '}' :: '}' :: post') hnmc
    simpa [List.dropWhile_cons, hnmSp] using hda
  have h5 : ((' ' : Char) :: '}' :: '}' :: post').dropWhile isWs
      = '}' :: '}' :: post' := by
    simp [List.dropWhile_cons, hwsSp, hwsBr]
  simp [matchDirectiveAt, h1, h2, h3, h4, h5, hwsSp, hn0]

/-- C7 (amended): the directive marker selects a layout wherever it occurs in
the template source, not only on the first line: for any prefix containing no
opening brace (hence no earlier match), any directive-shaped marker with a
nonempty capture-class name, and any suffix, rLayoutPattern captures the
marker's name, and on a compiling render whose merged data has no layout
field this name is exactly what the layout branch uses (chooseLayout). -/
theorem c7_marker_anywhere (pre nm post : String)
    (hpre : ∀ c ∈ pre.data, c ≠ '{')
    (hnm : nm.data ≠ [])
    (hnmc : ∀ c ∈ nm.data, isNameChar c = true) :
    findLayoutDirective (pre ++ "\x7b\x7b!< " ++ nm ++ " \x7d\x7d" ++ post) = some nm
    ∧ ∀ locals : Obj, getA locals "layout" = none →
        chooseLayout locals (pre ++ "\x7b\x7b!< " ++ nm ++ " \x7d\x7d" ++ post)
          = some (Val.vStr nm) := by
  have happ : ∀ s t : String, (s ++ t).data = s.data ++ t.data := fun s t => rfl
  have hdata : (pre ++ "\x7b\x7b!< " ++ nm ++ " \x7d\x7d" ++ post).data
      = pre.data
        ++ ('{' :: '{' :: '!' :: '<' :: ' '
            :: (nm.data ++ ' ' :: '}' :: '}' :: post.data)) := by
    simp only [happ, List.append_assoc]
    rfl
  have hfind : findLayoutDirective (pre ++ "\x7b\x7b!< " ++ nm ++ " \x7d\x7d" ++ post)
      = some nm := by
    unfold findLayoutDirective
    rw [hdata, findDirectiveFrom_append hpre]
    exact findDirectiveFrom_cons_some
      (matchDirectiveAt_directive nm.data post.data hnm hnmc)
  exact ⟨hfind, fun locals hno => by simp [chooseLayout, hno, hfind]⟩

/-- Witness for c7_marker_anywhere: the marker sits on the second line and is
still captured and chosen. -/
theorem c7_marker_anywhere_witness :
    findLayoutDirective "x\n\x7b\x7b!< lay \x7d\x7d" = some "lay"
    ∧ chooseLayout [] "x\n\x7b\x7b!< lay \x7d\x7d" = some (Val.vStr "lay") := by
  have h := c7_marker_anywhere "x\n" "lay" "" (by decide) (by decide) (by decide)
  exact ⟨h.1, h.2 [] rfl⟩

theorem getLayoutTemplate_default_passthrough {fsys : FS} {s : HbsState}
    (hdc : s.disableCache = false) (hslot : s.layoutTemplate = none)
    (hdef : s.defaultLayout = "") :
    getLayoutTemplate fsys s
      = (some ⟨passthroughSrc⟩, { s with layoutTemplate := some ⟨passthroughSrc⟩ },
         [Ev.compile passthroughSrc]) := by
  unfold getLayoutTemplate cacheLayout
  simp [hdc, hslot, hdef]

/-- C10: the block store is instance-wide and cleared only by retrieval,
never at the start or end of a render: when the body render contributes
fragments to a block name that the layout never retrieves (here the template
has no layout and the passthrough default layout touches no blocks), the
fragments remain in the instance store after the render completes, on top of
whatever was already there, and the next retrieval of that name — after any
later contributions — returns the stale fragments joined with the new ones. -/
theorem c10_blocks_survive_render (fsys : FS) (g : Glob) (eng : Engine)
    (st : HbsState) (ctxState : Obj) (tpl : String) (data : Obj) (p raw : String)
    (n bodyOut : String) (frags newFrags : List String)
    (habs : jsIsAbsolute tpl = false)
    (hres : (getTemplatePath fsys st tpl).1 = some p)
    (hread : fsys p = some raw)
    (hmiss : getA st.cache tpl = none)
    (hdc : st.disableCache = false)
    (hnolay : getA (mergedLocals st.locals ctxState data) "layout" = none)
    (hnodir : findLayoutDirective raw = none)
    (hnodef : st.defaultLayout = "")
    (hslot : st.layoutTemplate = none)
    (hbody : ∀ l b, eng ⟨raw⟩ l b = (bodyOut, contribList b n frags))
    (hpassb : ∀ l b, (eng ⟨passthroughSrc⟩ l b).2 = b) :
    ((render fsys g eng st ctxState tpl data).2.1).blocks
        = contribList st.blocks n frags
    ∧ (block (contribList ((render fsys g eng st ctxState tpl data).2.1).blocks
          n newFrags) n).1
        = String.intercalate "\n" ((getA st.blocks n).getD [] ++ frags ++ newFrags) := by
  have hblocks : ((render fsys g eng st ctxState tpl data).2.1).blocks
      = contribList st.blocks n frags := by
    unfold render
    rcases h1 : getTemplatePath fsys st tpl with ⟨p0, st1, ops1⟩
    rw [h1] at hres
    have hp0 : p0 = some p := hres
    subst hp0
    obtain ⟨pc, hS1⟩ := getTemplatePath_eq_state h1
    have hl1 : st1.locals = st.locals := by rw [hS1]
    have hb1 : st1.blocks = st.blocks := by rw [hS1]
    have hd1 : st1.disableCache = st.disableCache := by rw [hS1]
    have hc1 : st1.cache = st.cache := by rw [hS1]
    have hlt1 : st1.layoutTemplate = st.layoutTemplate := by rw [hS1]
    have hdef1 : st1.defaultLayout = st.defaultLayout := by rw [hS1]
    dsimp only
    simp only [habs, Bool.false_eq_true, if_false]
    rcases h2 : (if st1.disableCache || !st1.partialsRegistered
                 then registerPartials fsys g st1 else (st1, [])) with ⟨st2, ops2⟩
    dsimp only
    obtain ⟨ps, fl, hS2⟩ := partialsStep_state h2
    have hb2 : st2.blocks = st.blocks := by simp [hS2, hb1]
    have hd2 : st2.disableCache = st.disableCache := by simp [hS2, hd1]
    have hc2 : st2.cache = st.cache := by simp [hS2, hc1]
    have hlt2 : st2.layoutTemplate = st.layoutTemplate := by simp [hS2, hlt1]
    have hdef2 : st2.defaultLayout = st.defaultLayout := by simp [hS2, hdef1]
    have hoc : getOrCompile fsys st2 tpl p (mergedLocals st1.locals ctxState data)
        = compileTemplate fsys st2 tpl p (mergedLocals st1.locals ctxState data) := by
      unfold getOrCompile
      by_cases hdc2 : st2.disableCache
      · simp [hdc2]
      · simp [hdc2, hc2, hmiss]
    rw [hoc]
    unfold compileTemplate
    rw [hread]
    dsimp only
    rw [chooseLayout_none (by rw [hl1]; exact hnolay) hnodir]
    dsimp only
    rw [@getLayoutTemplate_default_passthrough fsys
        { st2 with cache := setA st2.cache tpl ⟨⟨raw⟩, none⟩ }
        (hd2.trans hdc) (hlt2.trans hslot) (hdef2.trans hnodef)]
    dsimp only
    rw [hbody]
    dsimp only
    rw [hpassb]
    rw [hb2]
  refine ⟨hblocks, ?_⟩
  rw [hblocks]
  simp [block, getA_contribList_getD, List.append_assoc]

/-- Witness for c10_blocks_survive_render: a store holding a stale fragment
old for block x, a body render contributing f1 and f2, and a later
contribution new; retrieval yields all four joined. -/
theorem c10_blocks_survive_render_witness :
    ((render exFsC10 (fun _ => []) exEngContrib exStC10 [] "tt" []).2.1).blocks
        = contribList exStC10.blocks "x" ["f1", "f2"]
    ∧ (block (contribList
          ((render exFsC10 (fun _ => []) exEngContrib exStC10 [] "tt" []).2.1).blocks
          "x" ["new"]) "x").1
        = String.intercalate "\n"
            ((getA exStC10.blocks "x").getD [] ++ ["f1", "f2"] ++ ["new"]) :=
  c10_blocks_survive_render exFsC10 (fun _ => []) exEngContrib exStC10 [] "tt" []
    "/v/tt.hbs" "T" "x" "made" ["f1", "f2"] ["new"]
    rfl rfl rfl rfl rfl rfl rfl rfl rfl
    (fun _ _ => rfl) (fun _ _ => rfl)

theorem jsSliceDropEnd_strip (pfx ext : String) (hext : ext ≠ "") :
    jsSliceDropEnd (pfx ++ ext) ext.length = pfx := by
  have hd : ext.data ≠ [] := by
    intro hnil
    apply hext
    cases ext with
    | mk d =>
      simp only at hnil
      subst hnil
      rfl
  have hlen : ext.length ≠ 0 := by
    intro h0
    exact hd (List.length_eq_zero.mp h0)
  unfold jsSliceDropEnd
  rw [if_neg hlen]
  show String.mk ((pfx.data ++ ext.data).take
      ((pfx.data ++ ext.data).length - ext.data.length)) = pfx
  rw [List.length_append, Nat.add_sub_cancel, List.take_left]

theorem partialPairs_mem {roots : List String} {g : Glob} {ext root pfx : String}
    (hroot : root ∈ roots) (hfile : (pfx ++ ext) ∈ g root) (hext : ext ≠ "") :
    (joinPath root (pfx ++ ext), pfx) ∈ partialPairs roots g ext := by
  unfold partialPairs
  rw [List.mem_flatten]
  refine ⟨(g root).map
    (fun file => (joinPath root file, jsSliceDropEnd file ext.length)), ?_, ?_⟩
  · exact List.mem_map_of_mem _ hroot
  · rw [List.mem_map]
    exact ⟨pfx ++ ext, hfile, by rw [jsSliceDropEnd_strip pfx ext hext]⟩

theorem readAll_total {fsys : FS} {pairs : List (String × String)}
    (h : ∀ pr ∈ pairs, (fsys pr.1).isSome) :
    ∃ regs, readAll fsys pairs = some regs := by
  induction pairs with
  | nil => exact ⟨[], rfl⟩
  | cons pr rest ih =>
    obtain ⟨c, hc⟩ := Option.isSome_iff_exists.mp (h pr (by simp))
    obtain ⟨regs, hregs⟩ := ih (fun q hq => h q (by simp [hq]))
    exact ⟨(pr.2, c) :: regs, by simp [readAll, hc, hregs]⟩

theorem readAll_mem {fsys : FS} {pairs regs : List (String × String)}
    (h : readAll fsys pairs = some regs) {fp nm c : String}
    (hmem : (fp, nm) ∈ pairs) (hc : fsys fp = some c) :
    (nm, c) ∈ regs := by
  induction pairs generalizing regs with
  | nil => simp at hmem
  | cons pr rest ih =>
    unfold readAll at h
    cases hfp : fsys pr.1 with
    | none => rw [hfp] at h; simp at h
    | some c' =>
      rw [hfp] at h
      cases hrest : readAll fsys rest with
      | none => rw [hrest] at h; simp at h
      | some acc =>
        rw [hrest] at h
        simp only [Option.some.injEq] at h
        subst h
        rcases List.mem_cons.mp hmem with heq | htl
        · subst heq
          dsimp only at hfp
          rw [hc] at hfp
          simp only [Option.some.injEq] at hfp
          subst hfp
          simp
        · exact List.mem_cons_of_mem _ (ih hrest htl)

theorem getA_setA_isSome {o : List (String × α)} {k k' : String} {v : α}
    (h : (getA o k).isSome) : (getA (setA o k' v) k).isSome := by
  rw [getA_setA]
  by_cases he : k' = k <;> simp [he, h]

theorem getA_foldl_setA_isSome {regs : List (String × String)}
    {t : List (String × String)} {nm : String}
    (h : (getA t nm).isSome ∨ ∃ c, (nm, c) ∈ regs) :
    (getA (regs.foldl (fun t pr => setA t pr.1 pr.2) t) nm).isSome := by
  induction regs generalizing t with
  | nil =>
    rcases h with h | ⟨c, hc⟩
    · exact h
    · simp at hc
  | cons pr rest ih =>
    simp only [List.foldl_cons]
    apply ih
    rcases h with h | ⟨c, hc⟩
    · exact Or.inl (getA_setA_isSome h)
    · rcases List.mem_cons.mp hc with heq | htl
      · left
        subst heq
        rw [getA_setA]
        simp
      · exact Or.inr ⟨c, htl⟩

/-- C9: a partial file discovered at relative path pfx ++ ext under a
configured partial root registers under the hierarchical name pfx: the
file/name pairs registerPartials assembles couple the root-joined path with
the extension-stripped relative path (directory separators untouched), and
when every discovered partial file is readable, registration completes, the
flag is raised, and the partial table holds the name pfx. -/
theorem c9_partial_hierarchical_names (fsys : FS) (g : Glob) (st : HbsState)
    (root pfx : String)
    (hroot : root ∈ st.partialsPath)
    (hfile : (pfx ++ st.extname) ∈ g root)
    (hext : st.extname ≠ "")
    (hreads : ∀ pr ∈ partialPairs st.partialsPath g st.extname, (fsys pr.1).isSome) :
    (joinPath root (pfx ++ st.extname), pfx)
        ∈ partialPairs st.partialsPath g st.extname
    ∧ ((registerPartials fsys g st).1).partialsRegistered = true
    ∧ (getA ((registerPartials fsys g st).1).partials pfx).isSome := by
  have hmem := partialPairs_mem hroot hfile hext
  obtain ⟨regs, hregs⟩ := readAll_total hreads
  obtain ⟨c, hcval⟩ := Option.isSome_iff_exists.mp (hreads _ hmem)
  have hin : (pfx, c) ∈ regs := readAll_mem hregs hmem hcval
  have hlen : ¬ st.partialsPath.length = 0 := by
    intro h0
    rw [List.length_eq_zero] at h0
    rw [h0] at hroot
    simp at hroot
  refine ⟨hmem, ?_, ?_⟩
  · simp only [registerPartials]
    rw [if_neg hlen, hregs]
  · simp only [registerPartials]
    rw [if_neg hlen, hregs]
    exact getA_foldl_setA_isSome (Or.inr ⟨c, hin⟩)

/-- Witness for c9_partial_hierarchical_names: one partial at sub/a.hbs under
root /p registers under the hierarchical name sub/a. -/
theorem c9_partial_hierarchical_names_witness :
    (joinPath "/p" ("sub/a" ++ exSt9.extname), "sub/a")
        ∈ partialPairs exSt9.partialsPath exGlob9 exSt9.extname
    ∧ ((registerPartials exFs9 exGlob9 exSt9).1).partialsRegistered = true
    ∧ (getA ((registerPartials exFs9 exGlob9 exSt9).1).partials "sub/a").isSome :=
  c9_partial_hierarchical_names exFs9 exGlob9 exSt9 "/p" "sub/a"
    (by decide) (by decide) (by decide) (by decide)

end KoaHbs
